import Mathlib

/-!
Shallow embedding of the score-handling, move-judging, budgeting and
PGN-segmenting logic of `annotator.py` (repository `antonbil/annotator-gui`),
together with theorems settling the specification claims about it.

Conventions of the embedding:
* Python integers are `ℤ`, Python floats are `ℚ` (or `ℝ` where the source
  applies `math.exp`), Python strings are `String` (for the PGN segmenter,
  `List Char`, so that the text-processing proofs can proceed by list
  induction).
* A `python-chess` `PovScore` already taken from the requested point of view
  is a pair of optional fields `mate?` / `cp?`, mirroring `score.is_mate()`,
  `score.mate()` and `score.cp`.
* Fallible Python code (functions that can raise) returns `Except String`.
* The judgment dictionary with optional keys becomes a structure of `Option`
  fields; a missing key is `none`.
-/

/-- A UCI move, identified by its text. -/
abbrev Move := String

instance {ε α : Type} [DecidableEq ε] [DecidableEq α] : DecidableEq (Except ε α) :=
  fun a b =>
  match a, b with
  | .ok x, .ok y => if h : x = y then .isTrue (by rw [h]) else .isFalse (by simp [h])
  | .error x, .error y =>
    if h : x = y then .isTrue (by rw [h]) else .isFalse (by simp [h])
  | .ok _, .error _ => .isFalse (by simp)
  | .error _, .ok _ => .isFalse (by simp)

/-- A relative engine score as used by `eval_numeric` / `eval_human`:
`mate?` is `score.mate()` when `score.is_mate()`, `cp?` is `score.cp`. -/
structure PovScore where
  mate? : Option ℤ
  cp? : Option ℤ
deriving DecidableEq, Repr

/-- `MAX_CP_SCORE = 20000`, the magic mate boundary of `annotator.py`. -/
def MAX_CP_SCORE : ℤ := 20000

/-- `MAX_CPL = 2000`, the configured maximum centipawn loss. -/
def MAX_CPL : ℤ := 2000

/-- `NEEDS_ANNOTATION_THRESHOLD = 1.0`. -/
def NEEDS_ANNOTATION_THRESHOLD : ℝ := 1

/-- The `ERROR_THRESHOLD` dictionary of `annotator.py`. -/
def ERROR_THRESHOLD : String → ℤ
  | "BLUNDER" => -200
  | "MISTAKE" => -100
  | "DUBIOUS" => -30
  | _ => 0

/-- `chess.pgn.NAG_BLUNDER`. -/
def NAG_BLUNDER : ℕ := 4

/-- `chess.pgn.NAG_MISTAKE`. -/
def NAG_MISTAKE : ℕ := 2

/-- `chess.pgn.NAG_DUBIOUS_MOVE`. -/
def NAG_DUBIOUS_MOVE : ℕ := 6

/-- `eval_numeric(result, board_turn)` of `annotator.py`, applied to the
already point-of-view-converted score: mate in `dtm > 0` plies maps to
`MAX_CP_SCORE - |dtm|`, being mated (`dtm < 0`) to `-(MAX_CP_SCORE - |dtm|)`,
`dtm = 0` to `0`; otherwise the centipawn value is returned; a score that is
neither a mate nor a centipawn value raises `RuntimeError`. -/
def eval_numeric (s : PovScore) : Except String ℤ :=
  match s.mate? with
  | some dtm =>
    if dtm > 0 then .ok (MAX_CP_SCORE - |dtm|)
    else if dtm < 0 then .ok (-(MAX_CP_SCORE - |dtm|))
    else .ok 0
  | none =>
    match s.cp? with
    | some c => .ok c
    | none => .error "Engine evaluation result was unintelligible or missing score."

/-- Negation of a relative score, as performed by `python-chess` when
`score.pov(chess.WHITE)` is taken for a score stored for Black. -/
def negPov (s : PovScore) : PovScore :=
  ⟨s.mate?.map (fun n => -n), s.cp?.map (fun c => -c)⟩

/-- `eval_human(white_to_move, result)` of `annotator.py`.  The source takes
the score from `result`, converts it with `score.pov(chess.WHITE)` — the
conversion depends only on the colour the relative score belongs to, passed
here as `scoreTurn` (`true` = White to move in the analysed position) — and
then renders it:
* mate in `dtm` plies shows `"Mate in " ++ int(|dtm| / 2)` when
  `|dtm| / 2 ≥ 1` (Python `int` truncates, hence `|dtm| / 2` in `ℕ`), and
  just `"Mate"` otherwise;
* a centipawn score `c` is printed as `c / 100` with an explicit sign and two
  decimals (`'{:+.2f}'`), exact here because `c` is an integer;
* a score that is neither raises `RuntimeError`. -/
def eval_human (scoreTurn : Bool) (s : PovScore) : Except String String :=
  let sw := if scoreTurn then s else negPov s
  match sw.mate? with
  | some dtm =>
    if dtm.natAbs / 2 ≥ 1 then .ok ("Mate in " ++ toString (dtm.natAbs / 2))
    else .ok "Mate"
  | none =>
    match sw.cp? with
    | some c =>
      .ok ((if c < 0 then "-" else "+") ++ toString (c.natAbs / 100) ++ "." ++
        (if c.natAbs % 100 < 10 then "0" ++ toString (c.natAbs % 100)
         else toString (c.natAbs % 100)))
    | none => .error "Engine evaluation result was unintelligible or missing score."

/-- `winning_chances(centipawns)` of `annotator.py`:
`50 + 50 * (2 / (1 + e^(-0.004 * centipawns)) - 1)`. -/
noncomputable def winning_chances (centipawns : ℤ) : ℝ :=
  50 + 50 * (2 / (1 + Real.exp (-0.004 * (centipawns : ℝ))) - 1)

/-- The judgment dictionary built by `judge_move`; every key of the Python
dict is an optional field (`none` = key absent). -/
structure Judgment where
  error : Option String := none
  bestmove : Option Move := none
  besteval : Option ℤ := none
  pv : Option (List Move) := none
  depth : Option ℕ := none
  nodes : Option ℕ := none
  bestcomment : Option String := none
  playedeval : Option ℤ := none
  playedcomment : Option String := none
deriving DecidableEq, Repr

/-- `needs_annotation (judgment)` of `annotator.py`: `False` for a missing
judgment or one lacking `besteval`/`playedeval`; otherwise true iff
`|wc(best) - wc(played)| > NEEDS_ANNOTATION_THRESHOLD` or
`wc(best) > wc(played)`. -/
def needs_annotation (judgment : Option Judgment) : Prop :=
  match judgment with
  | none => False
  | some j =>
    match j.besteval, j.playedeval with
    | some b, some p =>
      |winning_chances b - winning_chances p| > NEEDS_ANNOTATION_THRESHOLD ∨
        winning_chances b > winning_chances p
    | _, _ => False

/-- `get_nags(judgment)` of `annotator.py`, as a function of the only two
keys it reads.  The fourth branch compares the integer evaluations against
`besteval + 0.5`, a Python float comparison, embedded in `ℚ`. -/
def get_nags (besteval? playedeval? : Option ℤ) : List ℕ :=
  match besteval?, playedeval? with
  | some besteval, some playedeval =>
    let delta := playedeval - besteval
    if delta < ERROR_THRESHOLD "BLUNDER" then [NAG_BLUNDER]
    else if delta < ERROR_THRESHOLD "MISTAKE" then [NAG_MISTAKE]
    else if delta < ERROR_THRESHOLD "DUBIOUS" then [NAG_DUBIOUS_MOVE]
    else if (playedeval : ℚ) > (besteval : ℚ) + 0.5 then [9]
    else if playedeval > besteval then [7]
    else []
  | _, _ => []

/-- The result of one `engine.analyse` call as consumed by `judge_move`:
its (already relative) score and the principal variation, plus the `depth`
and `nodes` info fields copied into the judgment. -/
structure AnalysisRes where
  score : PovScore
  pv : List Move
  depth : Option ℕ := none
  nodes : Option ℕ := none
deriving DecidableEq, Repr

/-- What the engine does when `engine.analyse` is awaited: either it returns
a result or it terminates (raising `chess.engine.EngineTerminatedError`). -/
inductive EngineOutcome where
  | terminated : EngineOutcome
  | res : AnalysisRes → EngineOutcome
deriving DecidableEq, Repr

/-- `judge_move(board, played_move, engine, searchtime_s)` of `annotator.py`.
`judge_move` makes at most two `engine.analyse` calls; `first` and `second`
are the outcomes the engine would produce for them, `turn` is `board.turn`.
The returned `ℕ` counts the `analyse` calls actually issued.  Mirrors the
source exactly:
* termination of the FIRST call is caught and becomes the judgment
  `{error: "Engine terminated during analysis"}`;
* a first result without PV becomes `{error: "Engine found no primary
  variation (PV)"}`;
* when the played move equals `pv[0]`, no second call is made and
  `playedeval`/`playedcomment` are copied from the first analysis;
* otherwise the second call is issued on the position after the played move
  (whose side to move is `!turn`); its termination is NOT caught (the
  exception propagates, modelled as `Except.error`), and its PV is never
  inspected — only its score is used. -/
def judge_move (turn : Bool) (played : Move) (first second : EngineOutcome) :
    Except String (Judgment × ℕ) :=
  match first with
  | .terminated => .ok ({ error := some "Engine terminated during analysis" }, 1)
  | .res r1 =>
    match r1.pv with
    | [] => .ok ({ error := some "Engine found no primary variation (PV)" }, 1)
    | bm :: _ =>
      match eval_numeric r1.score with
      | .error e => .error e
      | .ok besteval =>
        match eval_human turn r1.score with
        | .error e => .error e
        | .ok bestcomment =>
          let base : Judgment :=
            { bestmove := some bm, besteval := some besteval, pv := some r1.pv,
              depth := r1.depth, nodes := r1.nodes, bestcomment := some bestcomment }
          if played = bm then
            .ok ({ base with
                     playedeval := some besteval,
                     playedcomment := some bestcomment }, 1)
          else
            match second with
            | .terminated => .error "EngineTerminatedError"
            | .res r2 =>
              match eval_numeric r2.score with
              | .error e => .error e
              | .ok playedeval =>
                match eval_human (!turn) r2.score with
                | .error e => .error e
                | .ok playedcomment =>
                  .ok ({ base with
                           playedeval := some playedeval,
                           playedcomment := some playedcomment }, 2)

/-- `get_total_budget(arg_gametime)`: minutes times 60. -/
def get_total_budget (arg_gametime : ℚ) : ℚ := arg_gametime * 60

/-- `get_pass1_budget(total_budget)`: a tenth of the total. -/
def get_pass1_budget (total_budget : ℚ) : ℚ := total_budget / 10

/-- `get_pass2_budget(total_budget, pass1_budget)`: the remainder. -/
def get_pass2_budget (total_budget pass1_budget : ℚ) : ℚ :=
  total_budget - pass1_budget

/-- `get_time_per_move(pass_budget, ply_count)`: the quotient, with the bare
`except:` returning the fallback `60` when the division raises
(`ZeroDivisionError` for a zero ply count). -/
def get_time_per_move (pass_budget : ℚ) (ply_count : ℕ) : ℚ :=
  if ply_count = 0 then 60 else pass_budget / ply_count

/-- The Pass-2 per-move time as computed inline in `analyze_game`:
`time_per_move = pass2_budget / error_count`, where a `ZeroDivisionError`
is swallowed (`except ZeroDivisionError: pass`), leaving `time_per_move` at
the value `prev` it had from Pass 1. -/
def pass2_time_per_move (pass2_budget : ℚ) (error_count : ℕ) (prev : ℚ) : ℚ :=
  if error_count = 0 then prev else pass2_budget / error_count

/-- Python `str.strip()` on a line of text (a `List Char`): drop whitespace
from both ends. -/
def strip (l : List Char) : List Char :=
  ((l.dropWhile Char.isWhitespace).reverse.dropWhile Char.isWhitespace).reverse

/-- The boundary marker of `pgn_text_iterator`. -/
def eventMarker : List Char := "[Event ".toList

/-- `stripped_line.startswith('[Event ')` of `pgn_text_iterator`. -/
def startsEvent (line : List Char) : Bool :=
  eventMarker.isPrefixOf (strip line)

/-- The loop body of `pgn_text_iterator`: fold over the remaining lines with
the `current_item_lines` buffer.  On a boundary line with a non-empty buffer
the joined, stripped buffer is yielded and the buffer restarts with that
line; otherwise the line is appended; at end of stream a non-empty buffer is
yielded. -/
def pgnIterGo : List (List Char) → List (List Char) → List (List Char)
  | [], buf => if buf.isEmpty then [] else [strip buf.flatten]
  | line :: ls, buf =>
    if startsEvent line then
      if buf.isEmpty then pgnIterGo ls (buf ++ [line])
      else strip buf.flatten :: pgnIterGo ls [line]
    else pgnIterGo ls (buf ++ [line])

/-- `pgn_text_iterator(filepath)` of `annotator.py`, applied to the lines of
the file (each line carrying its trailing newline, as Python iteration
yields them): the list of yielded game texts. -/
def pgn_text_iterator (lines : List (List Char)) : List (List Char) :=
  pgnIterGo lines []

/-! ### Helper lemmas -/

/-- Unfolding of `get_nags` on a judgment carrying both evaluations. -/
theorem get_nags_some (b p : ℤ) :
    get_nags (some b) (some p) =
      (if p - b < -200 then [NAG_BLUNDER]
       else if p - b < -100 then [NAG_MISTAKE]
       else if p - b < -30 then [NAG_DUBIOUS_MOVE]
       else if (p : ℚ) > (b : ℚ) + 0.5 then [9]
       else if p > b then [7]
       else []) := rfl

/-- Lines without the boundary marker are only ever accumulated into the
buffer. -/
theorem pgnIterGo_no_event (ls : List (List Char)) :
    ∀ (rest buf : List (List Char)), (∀ l ∈ ls, startsEvent l = false) →
      pgnIterGo (ls ++ rest) buf = pgnIterGo rest (buf ++ ls) := by
  induction ls with
  | nil => intro rest buf _; simp
  | cons l ls ih =>
    intro rest buf h
    have hl : startsEvent l = false := h l (List.mem_cons_self l ls)
    simp only [List.cons_append, pgnIterGo, hl, Bool.false_eq_true, if_false,
      List.append_eq]
    rw [ih rest (buf ++ [l]) (fun x hx => h x (List.mem_cons_of_mem _ hx))]
    simp

/-- Membership in a stripped line implies membership in the line. -/
theorem mem_of_mem_strip {c : Char} {l : List Char} (h : c ∈ strip l) :
    c ∈ l := by
  unfold strip at h
  rw [List.mem_reverse] at h
  have h1 := (List.dropWhile_suffix Char.isWhitespace).sublist.subset h
  rw [List.mem_reverse] at h1
  exact (List.dropWhile_suffix Char.isWhitespace).sublist.subset h1

/-- A line containing a non-whitespace character does not strip to the empty
string. -/
theorem strip_ne_nil {c : Char} {l : List Char} (hc : c ∈ l)
    (hw : c.isWhitespace = false) : strip l ≠ [] := by
  intro hnil
  unfold strip at hnil
  rw [List.reverse_eq_nil_iff] at hnil
  have h1 : c ∈ l.dropWhile Char.isWhitespace := by
    have hsplit : c ∈ l.takeWhile Char.isWhitespace ++ l.dropWhile Char.isWhitespace := by
      rw [List.takeWhile_append_dropWhile]
      exact hc
    rcases List.mem_append.mp hsplit with h | h
    · exact absurd (List.mem_takeWhile_imp h) (by simp [hw])
    · exact h
  have h2 : c ∈ (l.dropWhile Char.isWhitespace).reverse := List.mem_reverse.mpr h1
  have h3 := List.dropWhile_eq_nil_iff.mp hnil c h2
  simp [hw] at h3

/-! ### Claims -/

/-- C1 (amended): for a result reporting a forced mate in `n > 0` plies for
the requested point of view, `eval_numeric` returns `MAX_CP_SCORE - |n|`
(negated for a mate against the mover), a value `≥ MAX_CP_SCORE - n`; and
provided `n < MAX_CP_SCORE - MAX_CPL = 18000` — true of every mate distance
a chess game can produce — it is strictly greater than any centipawn result
`c` with `|c| ≤ MAX_CPL = 2000`. -/
theorem eval_numeric_mate_dominates (n c : ℤ) (o : Option ℤ)
    (hn : 0 < n) (hc : |c| ≤ MAX_CPL) (hbound : n < MAX_CP_SCORE - MAX_CPL) :
    eval_numeric ⟨some n, o⟩ = .ok (MAX_CP_SCORE - |n|) ∧
    eval_numeric ⟨some (-n), o⟩ = .ok (-(MAX_CP_SCORE - |n|)) ∧
    MAX_CP_SCORE - n ≤ MAX_CP_SCORE - |n| ∧
    eval_numeric ⟨none, some c⟩ = .ok c ∧
    c < MAX_CP_SCORE - |n| := by
  have habs : |n| = n := abs_of_pos hn
  have habs2 : |(-n)| = n := by rw [abs_neg, habs]
  have hc' := abs_le.mp hc
  unfold MAX_CP_SCORE MAX_CPL at *
  refine ⟨?_, ?_, ?_, rfl, ?_⟩
  · simp only [eval_numeric]
    rw [if_pos hn]
    rfl
  · simp only [eval_numeric]
    rw [if_neg (by omega), if_pos (by omega), habs2, habs]
    rfl
  · omega
  · omega

/-- C1 counterexample: at mate distance `n = 18000` the mate value equals
`2000 = MAX_CPL`, so it is not strictly greater than every centipawn result
bounded by `MAX_CPL`. -/
theorem eval_numeric_mate_dominates_cex :
    eval_numeric ⟨some 18000, none⟩ = .ok 2000 ∧
    eval_numeric ⟨none, some 2000⟩ = .ok 2000 ∧
    |(2000 : ℤ)| ≤ MAX_CPL ∧ ¬ (2000 : ℤ) < 2000 := by
  refine ⟨?_, rfl, by norm_num [MAX_CPL], by norm_num⟩
  simp only [eval_numeric]
  norm_num [MAX_CP_SCORE]

/-- C1 witness: concrete instance, mate in 3 plies against centipawn 2000. -/
theorem eval_numeric_mate_dominates_witness :
    eval_numeric ⟨some 3, none⟩ = .ok (MAX_CP_SCORE - |(3 : ℤ)|) ∧
    eval_numeric ⟨none, some 2000⟩ = .ok 2000 ∧
    (2000 : ℤ) < MAX_CP_SCORE - |(3 : ℤ)| := by
  have h := eval_numeric_mate_dominates 3 2000 none (by norm_num)
    (by norm_num [MAX_CPL]) (by norm_num [MAX_CP_SCORE, MAX_CPL])
  exact ⟨h.1, h.2.2.2.1, h.2.2.2.2⟩

/-- C4: `get_nags` is a pure function of the pair `(besteval, playedeval)`,
its threshold comparisons are strict, so `delta = -200` classifies as
MISTAKE (not BLUNDER), `delta = -100` as DUBIOUS (not MISTAKE), `delta = -30`
as none of the three error classes, and `(besteval, playedeval) =
(100, -150)` (delta `-250`) as BLUNDER. -/
theorem get_nags_boundary_strict (b p b2 p2 : ℤ) :
    (b2 = b → p2 = p → get_nags (some b2) (some p2) = get_nags (some b) (some p)) ∧
    (p - b = -200 → get_nags (some b) (some p) = [NAG_MISTAKE]) ∧
    (p - b = -100 → get_nags (some b) (some p) = [NAG_DUBIOUS_MOVE]) ∧
    (p - b = -30 → get_nags (some b) (some p) = []) ∧
    get_nags (some 100) (some (-150)) = [NAG_BLUNDER] := by
  refine ⟨fun h1 h2 => by rw [h1, h2], ?_, ?_, ?_, ?_⟩
  · intro h
    rw [get_nags_some, if_neg (by omega), if_pos (by omega)]
  · intro h
    rw [get_nags_some, if_neg (by omega), if_neg (by omega), if_pos (by omega)]
  · intro h
    have hq : ¬ ((p : ℚ) > (b : ℚ) + 0.5) := by
      have hpb : (p : ℚ) ≤ (b : ℚ) := by exact_mod_cast (by omega : p ≤ b)
      norm_num
      linarith
    rw [get_nags_some, if_neg (by omega), if_neg (by omega), if_neg (by omega),
      if_neg hq, if_neg (by omega)]
  · rw [get_nags_some, if_pos (by norm_num)]

/-- C4 witness: the boundary deltas evaluated at concrete pairs. -/
theorem get_nags_boundary_strict_witness :
    get_nags (some 0) (some (-200)) = [NAG_MISTAKE] ∧
    get_nags (some 0) (some (-100)) = [NAG_DUBIOUS_MOVE] ∧
    get_nags (some 0) (some (-30)) = [] := by
  refine ⟨(get_nags_boundary_strict 0 (-200) 0 0).2.1 (by norm_num),
    (get_nags_boundary_strict 0 (-100) 0 0).2.2.1 (by norm_num),
    (get_nags_boundary_strict 0 (-30) 0 0).2.2.2.1 (by norm_num)⟩

/-- C5 (amended): in `get_nags` the brilliant branch compares the integer
evaluations against `besteval + 0.5` — half a CENTIPAWN, not 50 centipawns —
so for a judgment whose delta is not below the DUBIOUS threshold the move is
classified `[9]` exactly when `playedeval` strictly exceeds `besteval` at
all, and the `[7]` (good-move) class is unreachable for integer
evaluations. -/
theorem get_nags_brilliant_margin (b p : ℤ) (h : -30 ≤ p - b) :
    (get_nags (some b) (some p) = [9] ↔ b < p) ∧
    get_nags (some b) (some p) ≠ [7] := by
  rw [get_nags_some, if_neg (by omega), if_neg (by omega), if_neg (by omega)]
  by_cases hq : (p : ℚ) > (b : ℚ) + 0.5
  · have hbp : b < p := by
      have : (b : ℚ) < (p : ℚ) := by norm_num at hq; linarith
      exact_mod_cast this
    rw [if_pos hq]
    exact ⟨⟨fun _ => hbp, fun _ => rfl⟩, by decide⟩
  · have hbp : ¬ b < p := by
      intro hlt
      have h1 : (b : ℚ) + 1 ≤ (p : ℚ) := by exact_mod_cast (by omega : b + 1 ≤ p)
      norm_num at hq
      linarith
    rw [if_neg hq, if_neg hbp]
    exact ⟨by simp [hbp], by decide⟩

/-- C5 counterexample: `besteval = 0`, `playedeval = 10` exceeds the best
evaluation by only 10 centipawns (≤ 50), yet `get_nags` returns the
brilliant class `[9]`, not the good-move class `[7]` the claim predicts. -/
theorem get_nags_brilliant_margin_cex :
    get_nags (some 0) (some 10) = [9] ∧
    (10 : ℤ) - 0 ≤ 50 ∧ ([9] : List ℕ) ≠ [7] := by
  refine ⟨?_, by norm_num, by decide⟩
  rw [get_nags_some]
  norm_num

/-- C5 witness: a one-centipawn improvement is already classified `[9]`. -/
theorem get_nags_brilliant_margin_witness :
    get_nags (some 0) (some 1) = [9] ∧ get_nags (some 0) (some 1) ≠ [7] := by
  have h := get_nags_brilliant_margin 0 1 (by norm_num)
  exact ⟨h.1.mpr (by norm_num), h.2⟩

/-- C10: a mate distance of exactly `0` (mate already delivered) makes
`eval_numeric` return `0` rather than signal the unusable-result error; the
error occurs exactly when the score carries neither a mate distance nor a
centipawn value; and the returned `0` coincides with the value for an equal
(0 centipawn) position. -/
theorem eval_numeric_mate_zero_ambiguous :
    eval_numeric ⟨some 0, none⟩ = .ok 0 ∧
    eval_numeric ⟨none, some 0⟩ = .ok 0 ∧
    ∀ s : PovScore, (∃ msg, eval_numeric s = .error msg) ↔
      s.mate? = none ∧ s.cp? = none := by
  refine ⟨rfl, rfl, ?_⟩
  rintro ⟨m, c⟩
  constructor
  · rintro ⟨msg, hmsg⟩
    cases m with
    | some dtm =>
      simp only [eval_numeric] at hmsg
      split_ifs at hmsg
    | none =>
      cases c with
      | some cv => simp [eval_numeric] at hmsg
      | none => exact ⟨rfl, rfl⟩
  · rintro ⟨hm, hc⟩
    simp only at hm hc
    subst hm; subst hc
    exact ⟨_, rfl⟩

/-- C2 (amended): the total budget is `gametime * 60` seconds, Pass 1 gets a
tenth of it, Pass 2 the rest; the Pass-1 per-move time is its budget over
the ply count, falling back to the constant `60` when the ply count is zero;
the Pass-2 per-move time is its budget over the flagged-move count, except
that a zero flagged-move count leaves the Pass-1 per-move time in place (it
is not clamped to a fallback constant).  For `gametime = 1.0` and
`ply_count = 20`: `pass1_budget = 6`, Pass-1 time per move `0.3`; with 4
flagged moves Pass 2 allocates `54 / 4 = 13.5` per move. -/
theorem budget_allocation (g : ℚ) (ply errs : ℕ) (b p2 prev : ℚ)
    (hply : ply ≠ 0) (herrs : errs ≠ 0) :
    get_total_budget g = g * 60 ∧
    get_pass1_budget (get_total_budget g) = g * 60 / 10 ∧
    get_pass2_budget (get_total_budget g) (get_pass1_budget (get_total_budget g)) =
      g * 60 - g * 60 / 10 ∧
    get_time_per_move (get_pass1_budget (get_total_budget g)) ply =
      g * 60 / 10 / ply ∧
    get_time_per_move b 0 = 60 ∧
    pass2_time_per_move p2 errs prev = p2 / errs ∧
    pass2_time_per_move p2 0 prev = prev ∧
    get_pass1_budget (get_total_budget 1) = 6 ∧
    get_time_per_move (get_pass1_budget (get_total_budget 1)) 20 = 3 / 10 ∧
    get_pass2_budget (get_total_budget 1) (get_pass1_budget (get_total_budget 1)) = 54 ∧
    pass2_time_per_move
      (get_pass2_budget (get_total_budget 1) (get_pass1_budget (get_total_budget 1)))
      4 prev = 27 / 2 := by
  refine ⟨rfl, rfl, rfl, ?_, rfl, ?_, rfl, ?_, ?_, ?_, ?_⟩
  · rw [get_time_per_move, if_neg hply]
    rfl
  · rw [pass2_time_per_move, if_neg herrs]
  · norm_num [get_pass1_budget, get_total_budget]
  · norm_num [get_time_per_move, get_pass1_budget, get_total_budget]
  · norm_num [get_pass2_budget, get_pass1_budget, get_total_budget]
  · norm_num [pass2_time_per_move, get_pass2_budget, get_pass1_budget,
      get_total_budget]

/-- C2 counterexample: when Pass 1 flags no move, the Pass-2 per-move time
is not clamped to the fallback constant `60` (nor to any constant): it keeps
the Pass-1 per-move value, here `0.3`. -/
theorem budget_allocation_cex :
    pass2_time_per_move
      (get_pass2_budget (get_total_budget 1) (get_pass1_budget (get_total_budget 1)))
      0 (get_time_per_move (get_pass1_budget (get_total_budget 1)) 20) = 3 / 10 ∧
    (3 / 10 : ℚ) ≠ 60 := by
  constructor
  · norm_num [pass2_time_per_move, get_time_per_move, get_pass1_budget,
      get_total_budget]
  · norm_num

/-- C2 witness: the claim's numeric scenario, by the amended theorem. -/
theorem budget_allocation_witness :
    get_pass1_budget (get_total_budget 1) = 6 ∧
    get_time_per_move (get_pass1_budget (get_total_budget 1)) 20 = 3 / 10 ∧
    get_pass2_budget (get_total_budget 1) (get_pass1_budget (get_total_budget 1)) = 54 ∧
    pass2_time_per_move
      (get_pass2_budget (get_total_budget 1) (get_pass1_budget (get_total_budget 1)))
      4 (3 / 10) = 27 / 2 := by
  have h := budget_allocation 1 20 4 6 54 (3 / 10) (by norm_num) (by norm_num)
  exact ⟨h.2.2.2.2.2.2.2.1, h.2.2.2.2.2.2.2.2.1, h.2.2.2.2.2.2.2.2.2.1,
    h.2.2.2.2.2.2.2.2.2.2⟩

/-- C8 (amended): for a mate in `dtm` plies for White, `eval_human` shows
`"Mate in "` followed by `⌊dtm / 2⌋` (floor, not ceiling) when `dtm ≥ 2`,
and just `"Mate"` for a single ply, so a mate in 1 ply does display
differently from a mate in 2 plies; a non-mate centipawn score `c` is shown
as `c / 100` with an explicit sign and two exact decimal digits. -/
theorem eval_human_display (dtm c : ℤ) (h2 : 2 ≤ dtm) :
    eval_human true ⟨some dtm, none⟩ = .ok ("Mate in " ++ toString (dtm.natAbs / 2)) ∧
    eval_human true ⟨some 1, none⟩ = .ok "Mate" ∧
    eval_human true ⟨some 1, none⟩ ≠ eval_human true ⟨some 2, none⟩ ∧
    eval_human true ⟨none, some c⟩ =
      .ok ((if c < 0 then "-" else "+") ++ toString (c.natAbs / 100) ++ "." ++
        (if c.natAbs % 100 < 10 then "0" ++ toString (c.natAbs % 100)
         else toString (c.natAbs % 100))) := by
  have hna : dtm.natAbs / 2 ≥ 1 := by
    have : 2 ≤ dtm.natAbs := by omega
    omega
  have hunf : eval_human true ⟨some dtm, none⟩ =
      if dtm.natAbs / 2 ≥ 1 then Except.ok ("Mate in " ++ toString (dtm.natAbs / 2))
      else Except.ok "Mate" := rfl
  refine ⟨?_, rfl, by decide, rfl⟩
  rw [hunf, if_pos hna]

/-- C8 counterexample: a mate in 3 plies displays as `"Mate in 1"`
(floor 3/2), not the `"Mate in 2"` that `ceil(3/2)` would give; and a mate
in a single ply is shown as `"Mate"`, without the move count `ceil(1/2) = 1`
the claim predicts. -/
theorem eval_human_display_cex :
    eval_human true ⟨some 3, none⟩ = .ok "Mate in 1" ∧
    ("Mate in 1" : String) ≠ "Mate in 2" ∧
    eval_human true ⟨some 1, none⟩ = .ok "Mate" := by
  exact ⟨by decide, by decide, rfl⟩

/-- C8 witness: mate in 4 plies and the centipawn score `-5`. -/
theorem eval_human_display_witness :
    eval_human true ⟨some 4, none⟩ =
      .ok ("Mate in " ++ toString ((4 : ℤ).natAbs / 2)) ∧
    eval_human true ⟨none, some (-5)⟩ = .ok "-0.05" := by
  have h := eval_human_display 4 (-5) (by norm_num)
  refine ⟨h.1, ?_⟩
  rw [h.2.2.2]
  decide

/-- C6: when the first analysis returns the played move as `pv[0]` (and its
score and comment are intelligible), `judge_move` issues no second `analyse`
call — the result is the same for every behaviour of the engine at a
hypothetical second call, the call count is 1 — and `playedeval` is set to
`besteval`; conversely, whenever two calls are issued the played move
differs from the engine's best move. -/
theorem judge_move_no_second_call (turn : Bool) (played : Move)
    (r1 : AnalysisRes) (rest : List Move) (e : ℤ) (cm : String)
    (hpv : r1.pv = played :: rest)
    (he : eval_numeric r1.score = .ok e)
    (hcm : eval_human turn r1.score = .ok cm) :
    (∀ second, judge_move turn played (.res r1) second =
      .ok ({ bestmove := some played, besteval := some e,
             pv := some (played :: rest), depth := r1.depth, nodes := r1.nodes,
             bestcomment := some cm, playedeval := some e,
             playedcomment := some cm }, 1)) ∧
    (∀ t p f s j n, judge_move t p f s = .ok (j, n) → n = 2 →
      ∃ bm, j.bestmove = some bm ∧ p ≠ bm) := by
  constructor
  · intro second
    obtain ⟨sc, pv, d, no⟩ := r1
    simp only at hpv he hcm
    subst hpv
    simp [judge_move, he, hcm]
  · intro t p f s j n hjm hn2
    subst hn2
    cases f with
    | terminated =>
      have h12 : (1 : ℕ) = 2 := congrArg Prod.snd (Except.ok.inj hjm)
      exact absurd h12 (by decide)
    | res r =>
      obtain ⟨sc2, pv2, d2, no2⟩ := r
      cases pv2 with
      | nil =>
        have h12 : (1 : ℕ) = 2 := congrArg Prod.snd (Except.ok.inj hjm)
        exact absurd h12 (by decide)
      | cons bm tail =>
        simp only [judge_move] at hjm
        rcases hev : eval_numeric sc2 with msg | ev
        · rw [hev] at hjm
          exact Except.noConfusion hjm
        rcases heh : eval_human t sc2 with msg2 | cmt
        · simp only [hev, heh] at hjm
          exact Except.noConfusion hjm
        simp only [hev, heh] at hjm
        by_cases hpb : p = bm
        · rw [if_pos hpb] at hjm
          have h12 : (1 : ℕ) = 2 := congrArg Prod.snd (Except.ok.inj hjm)
          exact absurd h12 (by decide)
        · rw [if_neg hpb] at hjm
          cases s with
          | terminated => exact Except.noConfusion hjm
          | res r2 =>
            rcases hev2 : eval_numeric r2.score with msg3 | pe
            · simp only [hev2] at hjm
              exact Except.noConfusion hjm
            rcases heh2 : eval_human (!t) r2.score with msg4 | pc
            · simp only [hev2, heh2] at hjm
              exact Except.noConfusion hjm
            simp only [hev2, heh2] at hjm
            refine ⟨bm, ?_, hpb⟩
            exact (congrArg (fun q => q.1.bestmove) (Except.ok.inj hjm)).symm

/-- C6 witness: a played move equal to the engine's best move; the result is
computed with one call even against an engine that would terminate on a
second call. -/
theorem judge_move_no_second_call_witness :
    judge_move true "e2e4"
      (.res ⟨⟨none, some 25⟩, ["e2e4"], some 10, some 1000⟩) .terminated =
      .ok ({ bestmove := some "e2e4", besteval := some 25, pv := some ["e2e4"],
             depth := some 10, nodes := some 1000, bestcomment := some "+0.25",
             playedeval := some 25, playedcomment := some "+0.25" }, 1) :=
  (judge_move_no_second_call true "e2e4"
    ⟨⟨none, some 25⟩, ["e2e4"], some 10, some 1000⟩ [] 25 "+0.25"
    rfl rfl (by decide)).1 .terminated

/-- C7 (amended): termination of the FIRST analysis yields the judgment
`{error: "Engine terminated during analysis"}` and a first result without
principal variation yields the distinct judgment `{error: "Engine found no
primary variation (PV)"}`, with no further computation (one call, no other
keys); but termination during the SECOND call is not caught — it propagates
as an exception out of `judge_move` — and a second result without principal
variation is not an error at all: only its score is used. -/
theorem judge_move_error_records (t : Bool) (p bm : Move) (r1 : AnalysisRes)
    (s : EngineOutcome) (rest : List Move) (e : ℤ) (cm : String)
    (hpv : r1.pv = bm :: rest) (hne : p ≠ bm)
    (he : eval_numeric r1.score = .ok e) (hcm : eval_human t r1.score = .ok cm) :
    judge_move t p .terminated s =
      .ok ({ error := some "Engine terminated during analysis" }, 1) ∧
    (∀ r : AnalysisRes, r.pv = [] → judge_move t p (.res r) s =
      .ok ({ error := some "Engine found no primary variation (PV)" }, 1)) ∧
    ("Engine terminated during analysis" : String) ≠
      "Engine found no primary variation (PV)" ∧
    judge_move t p (.res r1) .terminated = .error "EngineTerminatedError" ∧
    (∀ r2 : AnalysisRes, ∀ pe pc, eval_numeric r2.score = .ok pe →
      eval_human (!t) r2.score = .ok pc →
      ∃ j, judge_move t p (.res r1) (.res r2) = .ok (j, 2) ∧ j.error = none) := by
  obtain ⟨sc, pv, d, no⟩ := r1
  simp only at hpv he hcm
  subst hpv
  refine ⟨rfl, ?_, by decide, ?_, ?_⟩
  · intro r hr
    obtain ⟨sc2, pv2, d2, no2⟩ := r
    simp only at hr
    subst hr
    rfl
  · simp [judge_move, he, hcm, hne]
  · intro r2 pe pc hev2 heh2
    refine ⟨{ bestmove := some bm, besteval := some e, pv := some (bm :: rest),
              depth := d, nodes := no, bestcomment := some cm,
              playedeval := some pe, playedcomment := some pc }, ?_, rfl⟩
    simp [judge_move, he, hcm, hne, hev2, heh2]

/-- C7 counterexample: with a first result whose best move differs from the
played move, an engine termination at the second call makes `judge_move`
raise (return `Except.error`), not return an `error`-keyed judgment; and a
second result with an empty principal variation is judged normally. -/
theorem judge_move_error_records_cex :
    judge_move true "e2e4"
      (.res ⟨⟨none, some 30⟩, ["d2d4"], none, none⟩) .terminated =
      .error "EngineTerminatedError" ∧
    (judge_move true "e2e4"
      (.res ⟨⟨none, some 30⟩, ["d2d4"], none, none⟩) .terminated).toOption =
      none ∧
    judge_move true "e2e4"
      (.res ⟨⟨none, some 30⟩, ["d2d4"], none, none⟩)
      (.res ⟨⟨none, some (-10)⟩, [], none, none⟩) =
      .ok ({ bestmove := some "d2d4", besteval := some 30, pv := some ["d2d4"],
             bestcomment := some "+0.30", playedeval := some (-10),
             playedcomment := some "+0.10" }, 2) := by
  exact ⟨by decide, by decide, by decide⟩

/-- C7 witness: the two first-call error records at concrete inputs, and the
uncaught second-call termination. -/
theorem judge_move_error_records_witness :
    judge_move true "e2e4" .terminated .terminated =
      .ok ({ error := some "Engine terminated during analysis" }, 1) ∧
    judge_move true "e2e4"
      (.res ⟨⟨none, some 30⟩, ["d2d4"], none, none⟩) .terminated =
      .error "EngineTerminatedError" := by
  have h := judge_move_error_records true "e2e4" "d2d4"
    ⟨⟨none, some 30⟩, ["d2d4"], none, none⟩ .terminated [] 30 "+0.30"
    rfl (by decide) rfl (by decide)
  exact ⟨h.1, h.2.2.2.1⟩



/-- C9: for a file of exactly two concatenated PGN records, each opened by a
`[Event ` line and with no other line carrying the boundary marker, the
segmenter yields exactly two strings — the first record's own lines joined
and stripped, then the second's — both non-empty; splitting happens only at
the boundary marker (blank body lines are just accumulated), and the second
record is yielded from the buffer at end of stream without a trailing
boundary. -/
theorem pgn_text_iterator_two_records (e1 e2 : List Char)
    (b1 b2 : List (List Char))
    (h1 : startsEvent e1 = true) (h2 : startsEvent e2 = true)
    (hb1 : ∀ l ∈ b1, startsEvent l = false)
    (hb2 : ∀ l ∈ b2, startsEvent l = false) :
    pgn_text_iterator ((e1 :: b1) ++ (e2 :: b2)) =
      [strip (e1 :: b1).flatten, strip (e2 :: b2).flatten] ∧
    strip (e1 :: b1).flatten ≠ [] ∧ strip (e2 :: b2).flatten ≠ [] := by
  have hbra : ('[' : Char) ∈ eventMarker := by decide
  have hwsp : ('[' : Char).isWhitespace = false := by decide
  have hmem : ∀ (ev : List Char), startsEvent ev = true → ('[' : Char) ∈ ev := by
    intro ev hev
    unfold startsEvent at hev
    obtain ⟨t, ht⟩ := List.isPrefixOf_iff_prefix.mp hev
    exact mem_of_mem_strip (ht ▸ List.mem_append_left t hbra)
  refine ⟨?_, ?_, ?_⟩
  · unfold pgn_text_iterator
    rw [List.cons_append]
    show pgnIterGo (e1 :: (b1 ++ e2 :: b2)) [] = _
    simp only [pgnIterGo, h1, if_true, List.isEmpty_nil, List.nil_append]
    rw [pgnIterGo_no_event b1 (e2 :: b2) [e1] hb1]
    simp only [pgnIterGo, h2, if_true, List.cons_append, List.nil_append,
      List.isEmpty_cons, Bool.false_eq_true, if_false]
    have hlast := pgnIterGo_no_event b2 [] [e2] hb2
    rw [List.append_nil] at hlast
    rw [hlast]
    simp [pgnIterGo]
  · exact strip_ne_nil
      (List.mem_flatten.mpr ⟨e1, List.mem_cons_self e1 b1, hmem e1 h1⟩) hwsp
  · exact strip_ne_nil
      (List.mem_flatten.mpr ⟨e2, List.mem_cons_self e2 b2, hmem e2 h2⟩) hwsp

/-- C9 witness: a concrete two-game file. -/
theorem pgn_text_iterator_two_records_witness :
    pgn_text_iterator (("[Event A]\n".toList :: ["1. e4 e5\n".toList]) ++
        ("[Event B]\n".toList :: ["1. d4 d5\n".toList])) =
      [strip ("[Event A]\n".toList :: ["1. e4 e5\n".toList]).flatten,
       strip ("[Event B]\n".toList :: ["1. d4 d5\n".toList]).flatten] ∧
    strip ("[Event A]\n".toList :: ["1. e4 e5\n".toList]).flatten ≠ [] ∧
    strip ("[Event B]\n".toList :: ["1. d4 d5\n".toList]).flatten ≠ [] :=
  pgn_text_iterator_two_records _ _ _ _ (by decide) (by decide) (by decide)
    (by decide)

/-- C3 (amended): `needs_annotation` is false when the judgment is missing
or lacks either evaluation; with both present it holds exactly when the
winning-chance gap exceeds 1.0 percentage points in either direction or the
best move's winning chances strictly exceed the played move's.  (A move that
improves on the engine's estimate by more than 1.0 percentage points is
therefore still flagged; see the counterexample.) -/
theorem needs_annotation_spec :
    (¬ needs_annotation none) ∧
    (∀ j : Judgment, j.besteval = none ∨ j.playedeval = none →
      ¬ needs_annotation (some j)) ∧
    (∀ (j : Judgment) (b p : ℤ), j.besteval = some b → j.playedeval = some p →
      ( needs_annotation (some j) ↔
        |winning_chances b - winning_chances p| > NEEDS_ANNOTATION_THRESHOLD ∨
          winning_chances b > winning_chances p)) := by
  refine ⟨fun h => h, ?_, ?_⟩
  · intro j hj
    rcases hj with hb | hp
    · cases hp2 : j.playedeval <;> simp [ needs_annotation, hb, hp2]
    · cases hb2 : j.besteval <;> simp [ needs_annotation, hb2, hp]
  · intro j b p hb hp
    simp only [ needs_annotation, hb, hp]

/-- C3 counterexample: with `besteval = 0` and `playedeval = 1000` the
played move improves on the engine's estimate for the best move
(`winning_chances 0 < winning_chances 1000`), yet the judgment IS flagged,
because the absolute winning-chance delta exceeds the threshold. -/
theorem needs_annotation_improving_flagged :
    needs_annotation (some { besteval := some 0, playedeval := some 1000 }) ∧
    winning_chances 0 < winning_chances 1000 := by
  have h0 : winning_chances 0 = 50 := by
    unfold winning_chances
    norm_num [Real.exp_zero]
  have hexp : (-0.004 : ℝ) * ((1000 : ℤ) : ℝ) = -4 := by push_cast; norm_num
  have hE : 0 < Real.exp (-4 : ℝ) := Real.exp_pos _
  have h5 : (5 : ℝ) ≤ Real.exp 4 := by nlinarith [Real.add_one_le_exp (4 : ℝ)]
  have hle : Real.exp (-4 : ℝ) ≤ 1 / 5 := by
    rw [Real.exp_neg]
    calc (Real.exp 4)⁻¹ ≤ (5 : ℝ)⁻¹ := inv_anti₀ (by norm_num) h5
    _ = 1 / 5 := by norm_num
  have hd : (0 : ℝ) < 1 + Real.exp (-4 : ℝ) := by linarith
  have hw : winning_chances 1000 =
      50 + 50 * (2 / (1 + Real.exp (-4 : ℝ)) - 1) := by
    unfold winning_chances
    rw [hexp]
  have hfrac : 1 / 50 < 2 / (1 + Real.exp (-4 : ℝ)) - 1 := by
    have h3 : (51 : ℝ) / 50 < 2 / (1 + Real.exp (-4 : ℝ)) := by
      rw [lt_div_iff₀ hd]
      nlinarith
    linarith
  have hw51 : 51 < winning_chances 1000 := by rw [hw]; nlinarith
  refine ⟨Or.inl ?_, by rw [h0]; linarith⟩
  rw [h0, abs_sub_comm, abs_of_pos (by linarith)]
  unfold NEEDS_ANNOTATION_THRESHOLD
  linarith

/-- C3 witness: a judgment lacking `besteval` is never flagged. -/
theorem needs_annotation_spec_witness :
    ¬ needs_annotation (some { besteval := none, playedeval := some 0 }) :=
  needs_annotation_spec.2.1 _ (Or.inl rfl)
